import Mathlib

/-!
# RBee: humanized input synthesis and command intake

A shallow embedding of `cmd/rbee/rb.go`.  Go code that talks to the outside world
(the entropy reader, the robotgo platform calls, the rate limiter) is modelled by state
passing over a `World`: the world holds, for every kind of external call, the outcomes the
environment is going to answer with, a counter of the calls made so far, and the ordered
trace of the platform actions performed.

* Go `int` is a 64-bit two's complement integer: `wrapInt` after every arithmetic operation.
* Go `string` is a sequence of bytes; `range` over a string and `string(r)` follow the UTF-8
  rules of the Go language.
* Go `float64` is Lean's `Float` (IEEE 754 binary64).
-/

namespace RBee

/-! ## Machine integers -/

/-- Two's complement wrap-around of a Go `int` (64 bits). -/
def wrapInt (x : Int) : Int :=
  (x + 9223372036854775808) % 18446744073709551616 - 9223372036854775808

/-- The values a Go `int` can hold. -/
@[reducible] def IsGoInt (x : Int) : Prop :=
  -9223372036854775808 ≤ x ∧ x ≤ 9223372036854775807

/-- Go conversion `int(f)` / `int64(f)` of a `float64`: truncation toward zero. -/
def floatToInt (f : Float) : Int :=
  if f < 0 then -((-f).toUInt64.toNat : Int) else (f.toUInt64.toNat : Int)

/-! ## Go strings and UTF-8 -/

/-- One byte. -/
abbrev Byte := Fin 256

/-- A Go `string`: an immutable sequence of bytes. -/
abbrev GoString := List Byte

/-- The byte with the given value (values are taken modulo 256). -/
def byteOf (n : Nat) : Byte := ⟨n % 256, Nat.mod_lt _ (by decide)⟩

/-- A Go `rune`: a Unicode code point. -/
abbrev Rune := Nat

/-- The replacement character U+FFFD (`utf8.RuneError`). -/
def runeError : Rune := 0xFFFD

/-- Go conversion `string(r)` of a rune (`utf8.AppendRune`): the UTF-8 encoding of the code
point, or the encoding of U+FFFD when `r` is a surrogate or lies beyond U+10FFFF. -/
def encodeRune (r : Rune) : GoString :=
  if r < 0x80 then [byteOf r]
  else if r < 0x800 then [byteOf (0xC0 + r / 64), byteOf (0x80 + r % 64)]
  else if 0x10FFFF < r ∨ (0xD800 ≤ r ∧ r ≤ 0xDFFF) then [byteOf 0xEF, byteOf 0xBF, byteOf 0xBD]
  else if r < 0x10000 then
    [byteOf (0xE0 + r / 4096), byteOf (0x80 + r / 64 % 64), byteOf (0x80 + r % 64)]
  else
    [byteOf (0xF0 + r / 262144), byteOf (0x80 + r / 4096 % 64), byteOf (0x80 + r / 64 % 64),
      byteOf (0x80 + r % 64)]

/-- A continuation byte `10xxxxxx`. -/
def isCont (b : Byte) : Bool := 0x80 ≤ b.val && b.val ≤ 0xBF

/-- Go runtime `decoderune`: the rune that starts at the head of `s` and the number of bytes
it occupies.  An invalid or truncated sequence gives U+FFFD and width 1. -/
def decodeRune (s : GoString) : Rune × Nat :=
  match s with
  | [] => (runeError, 1)
  | b0 :: rest =>
    if b0.val < 0x80 then (b0.val, 1)
    else if 0xC0 ≤ b0.val ∧ b0.val < 0xE0 then
      match rest with
      | b1 :: _ =>
        if isCont b1 then
          let r := (b0.val % 32) * 64 + b1.val % 64
          if 0x7F < r then (r, 2) else (runeError, 1)
        else (runeError, 1)
      | _ => (runeError, 1)
    else if 0xE0 ≤ b0.val ∧ b0.val < 0xF0 then
      match rest with
      | b1 :: b2 :: _ =>
        if isCont b1 && isCont b2 then
          let r := (b0.val % 16) * 4096 + (b1.val % 64) * 64 + b2.val % 64
          if 0x7FF < r ∧ ¬ (0xD800 ≤ r ∧ r ≤ 0xDFFF) then (r, 3) else (runeError, 1)
        else (runeError, 1)
      | _ => (runeError, 1)
    else if 0xF0 ≤ b0.val ∧ b0.val < 0xF8 then
      match rest with
      | b1 :: b2 :: b3 :: _ =>
        if isCont b1 && isCont b2 && isCont b3 then
          let r := (b0.val % 8) * 262144 + (b1.val % 64) * 4096 + (b2.val % 64) * 64
            + b3.val % 64
          if 0xFFFF < r ∧ r ≤ 0x10FFFF then (r, 4) else (runeError, 1)
        else (runeError, 1)
      | _ => (runeError, 1)
    else (runeError, 1)

/-- The runes a `for _, c := range s` loop visits, in order; `skip` is the number of bytes
still belonging to the rune decoded last. -/
def rangeRunesAux : Nat → GoString → List Rune
  | _, [] => []
  | skip + 1, _ :: rest => rangeRunesAux skip rest
  | 0, b :: rest => (decodeRune (b :: rest)).1 :: rangeRunesAux ((decodeRune (b :: rest)).2 - 1) rest

/-- The runes visited by `for _, c := range s`. -/
def rangeRunes (s : GoString) : List Rune := rangeRunesAux 0 s

/-- The bytes of a text: the UTF-8 encoding of its characters, one after the other. -/
def encodeChars (cs : List Char) : GoString :=
  (cs.map (fun c => encodeRune c.toNat)).flatten

/-- The Go string holding the given text (a Go string literal is UTF-8 encoded). -/
def goStr (s : String) : GoString := encodeChars s.data

/-! ## Errors -/

/-- Where a Go `error` value was made. -/
inductive ErrOrigin where
  | fmtErrorf
  | robotgo
  | cryptoRand
  | strconv
  | json
  deriving DecidableEq, Repr

/-- A Go `error` value: who made it, and the text `Error()` returns. -/
structure GoError where
  origin : ErrOrigin
  msg : GoString
  deriving DecidableEq, Repr

/-! ## The outside world -/

/-- Which statement of `TypeStr` a `robotgo.TypeStr` call comes from. -/
inductive EmitKind where
  | genuine
  | typo
  deriving DecidableEq, Repr

/-- One platform action, with the arguments it was called with. -/
inductive Event where
  | moveSmooth (x y : Int) (low high : Float)
  | sleep (millis : Int)
  | click (button : GoString)
  | typeStr (kind : EmitKind) (payload : GoString)
  | keyTap (key : GoString) (result : Option GoError)

/-- The environment of one run. -/
structure World where
  /-- Outcome of the k-th read of `rand.Reader`: an error, or the raw entropy. -/
  entropy : Nat → Except GoError Nat
  /-- Number of entropy reads made so far. -/
  reads : Nat
  /-- Outcome of the k-th `robotgo.KeyTap` call: the text of the platform error, or nil. -/
  keyTapResult : Nat → Option GoString
  /-- Number of key taps made so far. -/
  taps : Nat
  /-- Answer of the k-th `robotgo.Location` call. -/
  cursor : Nat → Int × Int
  /-- Number of cursor position queries made so far. -/
  looks : Nat
  /-- Answer of the k-th `limiter.Allow` call. -/
  allow : Nat → Bool
  /-- Number of rate limiter queries made so far. -/
  asks : Nat
  /-- The platform actions performed so far, oldest first. -/
  trace : List Event

/-- Result of running a piece of Go code: it returns a value in a new world, or it panics. -/
inductive Res (α : Type) where
  | ok (val : α) (w : World)
  | panic (msg : String)

/-- Go code with effects on the world. -/
def Sim (α : Type) : Type := World → Res α

/-- Returning a value leaves the world alone. -/
def Sim.pure {α : Type} (a : α) : Sim α := fun w => .ok a w

/-- Sequencing: a panic of the first part ends the run. -/
def Sim.bind {α β : Type} (m : Sim α) (f : α → Sim β) : Sim β := fun w =>
  match m w with
  | .ok a w' => f a w'
  | .panic msg => .panic msg

instance : Monad Sim where
  pure := Sim.pure
  bind := Sim.bind

/-- Record one platform action at the end of the trace. -/
def World.emit (w : World) (e : Event) : World := { w with trace := w.trace ++ [e] }

/-- The world after one more entropy read. -/
def World.tick (w : World) : World := { w with reads := w.reads + 1 }

/-- Go `time.Sleep(time.Duration(ms) * time.Millisecond)`. -/
def sleepMillis (ms : Int) : Sim Unit := fun w => .ok () (w.emit (.sleep ms))

/-- Go `robotgo.MoveSmooth(x, y, low, high)`. -/
def MoveSmooth (x y : Int) (low high : Float) : Sim Unit := fun w =>
  .ok () (w.emit (.moveSmooth x y low high))

/-- Go `robotgo.Location()`. -/
def Location : Sim (Int × Int) := fun w =>
  .ok (w.cursor w.looks) { w with looks := w.looks + 1 }

/-- Go `robotgo.Click(button)`; `robotgo.Click()` clicks the left button. -/
def Click (button : GoString) : Sim Unit := fun w => .ok () (w.emit (.click button))

/-- Go `robotgo.TypeStr(s)`, labelled with the statement that calls it. -/
def robotTypeStr (kind : EmitKind) (s : GoString) : Sim Unit := fun w =>
  .ok () (w.emit (.typeStr kind s))

/-- Go `robotgo.KeyTap(key)`: the platform answers with an error or with nil. -/
def KeyTap (key : GoString) : Sim (Option GoError) := fun w =>
  let err := (w.keyTapResult w.taps).map (GoError.mk .robotgo)
  .ok err { w with taps := w.taps + 1, trace := w.trace ++ [.keyTap key err] }

/-- Go `limiter.Allow()`. -/
def limiterAllow : Sim Bool := fun w => .ok (w.allow w.asks) { w with asks := w.asks + 1 }

/-- Go `rand.Int(rand.Reader, max)`: panics when `max <= 0`; returns 0 without reading when
`max` is 1, the only value of `[0, 1)`; otherwise reads the entropy source and returns the
read error, or a value of `[0, max)`. -/
def randInt (max : Int) : Sim (Except GoError Int) := fun w =>
  if max ≤ 0 then .panic "crypto/rand: argument to Int is <= 0"
  else if max = 1 then .ok (.ok 0) w
  else
    match w.entropy w.reads with
    | .error e => .ok (.error e) w.tick
    | .ok k => .ok (.ok ((k : Int) % max)) w.tick

/-! ## Randomness helpers (`getRandInt`, `getRandFloat`) -/

/-- Go `getRandInt(min, max)`. -/
def getRandInt (min max : Int) : Sim Int := do
  let rangeInt := wrapInt (wrapInt (max - min) + 1)
  let r ← randInt rangeInt
  match r with
  | .error _ => return 0
  | .ok n => return wrapInt (min + n)

/-- The argument `int64((max * 100) - (min * 100) + 1)` of `rand.Int` in `getRandFloat`. -/
def floatRange (min max : Float) : Int := floatToInt ((max * 100) - (min * 100) + 1)

/-- Go `getRandFloat(min, max)`. -/
def getRandFloat (min max : Float) : Sim Float := do
  let rangeInt := floatRange min max
  let r ← randInt rangeInt
  match r with
  | .error _ => return 0
  | .ok n => return min + Float.ofInt n / 100

/-! ## Trajectory (`moveToWithJitter`, `pseudoCircularMovement`, `MouseMove`) -/

/-- Go `math.Pi` as a `float64`. -/
def mathPi : Float := 3.141592653589793

/-- One pass of the loop body of `pseudoCircularMovement`, for loop index `i`. -/
def circleStep (centerX centerY : Int) (r : Float) (p : Int) (clockwise : Bool) (steps : Int)
    (s v : Float) (i : Int) : Sim Unit := do
  let angle := 2 * mathPi * Float.ofInt i / Float.ofInt steps
  let angle := if !clockwise then -angle else angle
  let newX := wrapInt (centerX + floatToInt (r * Float.cos angle))
  let newY := wrapInt (centerY + floatToInt (r * Float.sin angle))
  MoveSmooth newX newY s v
  sleepMillis p

/-- The loop `for i := 0; i <= steps; i++` of `pseudoCircularMovement`, entered at index `i`
with `n` passes left. -/
def circleLoop (centerX centerY : Int) (r : Float) (p : Int) (clockwise : Bool) (steps : Int)
    (s v : Float) : Nat → Int → Sim Unit
  | 0, _ => pure ()
  | n + 1, i => do
    circleStep centerX centerY r p clockwise steps s v i
    circleLoop centerX centerY r p clockwise steps s v n (i + 1)

/-- Go `pseudoCircularMovement(x, y, steps, s, v)`. -/
def pseudoCircularMovement (x y steps : Int) (s v : Float) : Sim Unit := do
  let r := Float.ofInt (← getRandInt 16 50)
  let p ← getRandInt 5 50
  let clockwise := (← getRandInt 0 1) == 0
  let (startX, startY) ← Location
  MoveSmooth x y s v
  sleepMillis p
  let centerX := wrapInt (x - floatToInt (r * Float.cos (mathPi / 2)))
  let centerY := wrapInt (y - floatToInt (r * Float.sin (mathPi / 2)))
  circleLoop centerX centerY r p clockwise steps s v (steps + 1).toNat 0
  MoveSmooth startX startY s v

/-- One pass of the loop body of `moveToWithJitter`, for loop index `i`. -/
def jitterStep (startX startY endX endY : Int) (speed velocity : Float) (steps : Int)
    (i : Int) : Sim Unit := do
  let t := Float.ofInt i / Float.ofInt steps
  let curX := floatToInt (Float.ofInt startX + t * Float.ofInt (wrapInt (endX - startX)))
  let curY := floatToInt (Float.ofInt startY + t * Float.ofInt (wrapInt (endY - startY)))
  let curX := wrapInt (curX + (← getRandInt (-2) 2))
  let curY := wrapInt (curY + (← getRandInt (-2) 2))
  MoveSmooth curX curY speed velocity
  sleepMillis (← getRandInt 10 50)

/-- The loop `for i := 0; i < steps; i++` of `moveToWithJitter`, entered at index `i` with
`n` passes left. -/
def jitterLoop (startX startY endX endY : Int) (speed velocity : Float) (steps : Int) :
    Nat → Int → Sim Unit
  | 0, _ => pure ()
  | n + 1, i => do
    jitterStep startX startY endX endY speed velocity steps i
    jitterLoop startX startY endX endY speed velocity steps n (i + 1)

/-- Go `moveToWithJitter(startX, startY, endX, endY, speed, velocity)`. -/
def moveToWithJitter (startX startY endX endY : Int) (speed velocity : Float) : Sim Unit := do
  let steps : Int := 10
  jitterLoop startX startY endX endY speed velocity steps steps.toNat 0
  if (← getRandInt 0 1) > 0 then
    pseudoCircularMovement endX endY 10 speed velocity
  MoveSmooth endX endY speed velocity

/-- Go `MouseMove(x, y)`; the progress line printed on standard output is not a platform
action and is left out of the trace. -/
def MouseMove (x y : Int) : Sim (Option GoError) := do
  let (currentX, currentY) ← Location
  let s ← getRandFloat 0.5 1.5
  let v ← getRandFloat 0.5 1.5
  moveToWithJitter currentX currentY x y s v
  return none

/-! ## Typing (`TypeStr`) -/

/-- The key name `"Backspace"`. -/
def backspace : GoString := goStr "Backspace"

/-- Go index expression `str[i]`: a run-time panic when `i` is not a position of `str`. -/
def indexByte (str : GoString) (i : Int) : Sim Byte := fun w =>
  if i < 0 then .panic "index out of range"
  else
    match str.get? i.toNat with
    | some b => .ok b w
    | none => .panic "index out of range"

/-- The typo block of `TypeStr` (the body of `if getRandInt(0, 100) < 5`): a wrong
character, a pause, and the Backspace that corrects it; the result is the error of the
Backspace key tap, or nil. -/
def typoBlock (str : GoString) : Sim (Option GoError) := do
  let typo ← getRandInt 0 (wrapInt ((str.length : Int) - 1))
  let b ← indexByte str typo
  robotTypeStr .typo (encodeRune b.val)
  sleepMillis (← getRandInt 100 300)
  KeyTap backspace

/-- The statement `if getRandInt(0, 100) < 5 { ... }` of the loop body of `TypeStr`: the
result is the error its `return err` leaves the function with, or nil when control goes on
to the statements after it. -/
def typoAttempt (str : GoString) : Sim (Option GoError) := do
  if (← getRandInt 0 100) < 5 then typoBlock str else pure none

/-- The loop `for _, c := range str` of `TypeStr` over the runes still to visit; the result
is the error the loop returns early with, or nil once the loop is through. -/
def typeLoop (str : GoString) : List Rune → Sim (Option GoError)
  | [] => pure none
  | c :: rest => do
    match (← typoAttempt str) with
    | some err => return some err
    | none =>
      robotTypeStr .genuine (encodeRune c)
      sleepMillis (← getRandInt 50 300)
      typeLoop str rest

/-- Go `TypeStr(str)`. -/
def TypeStr (str : GoString) : Sim (Option GoError) := typeLoop str (rangeRunes str)

/-! ## Command dispatch (`executeCommand`) -/

/-- Modelled from the spec: the `Command` struct, whose declaration is not part of the
source file; the spec gives it an `action`, integer `x` and `y`, and a string `value`. -/
structure Command where
  Action : GoString
  X : Int
  Y : Int
  Value : GoString

/-- Go `fmt.Errorf("unknown action: %s", action)`. -/
def unknownAction (action : GoString) : GoError :=
  ⟨.fmtErrorf, goStr "unknown action: " ++ action⟩

/-- Go `executeCommand(cmd)`. -/
def executeCommand (cmd : Command) : Sim (Option GoError) :=
  if cmd.Action = goStr "moveMouse" then MouseMove cmd.X cmd.Y
  else if cmd.Action = goStr "click" then do
    Click (goStr "left")
    return none
  else if cmd.Action = goStr "right_click" then do
    Click (goStr "right")
    return none
  else if cmd.Action = goStr "type" then TypeStr cmd.Value
  else if cmd.Action = goStr "keyTap" then do
    let err ← KeyTap cmd.Value
    return err
  else return some (unknownAction cmd.Action)

/-! ## Command intake (`commandHandler` and its middlewares) -/

/-- The parts of an `*http.Request` the handlers look at. -/
structure Request where
  Method : GoString
  Body : GoString

/-- The state of an `http.ResponseWriter`: the header map, the status code once it has been
written, and the body written so far. -/
structure ResponseWriter where
  header : List (GoString × GoString)
  status : Option Nat
  body : GoString

/-- Go `w.Header().Set(key, value)`. -/
def ResponseWriter.setHeader (rw : ResponseWriter) (key value : GoString) : ResponseWriter :=
  { rw with header := (key, value) :: rw.header.filter (fun kv => kv.1 ≠ key) }

/-- Go `w.WriteHeader(code)`: only the first status code written counts. -/
def ResponseWriter.writeHeader (rw : ResponseWriter) (code : Nat) : ResponseWriter :=
  match rw.status with
  | some _ => rw
  | none => { rw with status := some code }

/-- Go `w.Write(data)`: writes status 200 first when no status has been written. -/
def ResponseWriter.write (rw : ResponseWriter) (data : GoString) : ResponseWriter :=
  { rw.writeHeader 200 with body := rw.body ++ data }

/-- Go `http.Error(w, msg, code)`: plain-text headers, the status code, and the message
followed by a newline. -/
def httpError (rw : ResponseWriter) (msg : GoString) (code : Nat) : ResponseWriter :=
  (((rw.setHeader (goStr "Content-Type") (goStr "text/plain; charset=utf-8")).setHeader
    (goStr "X-Content-Type-Options") (goStr "nosniff")).writeHeader code).write
    (msg ++ goStr "\n")

/-- An `http.Handler`. -/
abbrev Handler := ResponseWriter → Request → Sim ResponseWriter

/-- Go `commandHandler(w, r)`.  `decode` stands for `json.NewDecoder(r.Body).Decode(&cmd)`:
the decoded command, or the decode error. -/
def commandHandler (decode : GoString → Except GoError Command) : Handler := fun rw r =>
  if r.Method ≠ goStr "POST" then
    return httpError rw (goStr "Only POST method is accepted") 405
  else
    match decode r.Body with
    | .error err => return httpError rw err.msg 400
    | .ok cmd => do
      match (← executeCommand cmd) with
      | some err => return httpError rw err.msg 500
      | none => return (rw.writeHeader 200).write (goStr "Command executed")

/-- Go `RateLimitMiddleware(next)`. -/
def RateLimitMiddleware (next : Handler) : Handler := fun rw r => do
  if !(← limiterAllow) then
    return httpError rw (goStr "Too Many Requests") 429
  else next rw r

/-- The three `w.Header().Set` calls of `SecurityHeadersMiddleware`. -/
def withSecurityHeaders (rw : ResponseWriter) : ResponseWriter :=
  ((rw.setHeader (goStr "X-Content-Type-Options") (goStr "nosniff")).setHeader
    (goStr "X-Frame-Options") (goStr "DENY")).setHeader
    (goStr "Content-Security-Policy") (goStr "default-src \x27self\x27")

/-- Go `SecurityHeadersMiddleware(next)`. -/
def SecurityHeadersMiddleware (next : Handler) : Handler := fun rw r =>
  next (withSecurityHeaders rw) r

/-- The handler `initAPIv1` registers for `/v1/rb`. -/
def cmdHandlerWithMiddlewares (decode : GoString → Except GoError Command) : Handler :=
  SecurityHeadersMiddleware (RateLimitMiddleware (commandHandler decode))

/-- A fresh response writer, as the HTTP server hands it to the handler. -/
def ResponseWriter.fresh : ResponseWriter := ⟨[], none, []⟩

/-! ## Startup: the rate-limit flag (`main`) -/

/-- Go `strings.Split(s, sep)` for a one-byte separator. -/
def stringsSplit (sep : Byte) : GoString → List GoString
  | [] => [[]]
  | b :: rest =>
    if b = sep then [] :: stringsSplit sep rest
    else
      match stringsSplit sep rest with
      | [] => [[b]]
      | part :: parts => (b :: part) :: parts

/-- The value of a run of decimal digits read left to right from `acc`; `none` when a byte
is not a digit. -/
def parseDigits : Nat → GoString → Option Nat
  | acc, [] => some acc
  | acc, b :: rest =>
    if 48 ≤ b.val ∧ b.val ≤ 57 then parseDigits (acc * 10 + (b.val - 48)) rest else none

/-- The error `strconv.Atoi` returns for a string that is not a decimal integer. -/
def errSyntax : GoError := ⟨.strconv, goStr "invalid syntax"⟩

/-- The error `strconv.Atoi` returns for a decimal integer that does not fit an `int`. -/
def errRange : GoError := ⟨.strconv, goStr "value out of range"⟩

/-- Go `strconv.Atoi(s)`: an optional sign followed by one or more decimal digits, within
the range of `int`. -/
def Atoi (s : GoString) : Except GoError Int :=
  let neg : Bool := s.head? = some (byteOf 45)
  let digits := if s.head? = some (byteOf 45) ∨ s.head? = some (byteOf 43) then s.tail else s
  if digits = [] then .error errSyntax
  else
    match parseDigits 0 digits with
    | none => .error errSyntax
    | some n =>
      let v : Int := if neg then -(n : Int) else (n : Int)
      if v < -9223372036854775808 ∨ 9223372036854775807 < v then .error errRange
      else .ok v

/-- Go slice index `parts[i]`: a run-time panic when `i` is not below the length. -/
def indexPart (parts : List GoString) (i : Nat) : Except String GoString :=
  match parts.get? i with
  | some p => .ok p
  | none => .error "index out of range"

/-- The rate-limit lines of `main` (`rl`, `bl` from the `-ratelimit` flag value): the pair
handed to `rate.NewLimiter`, or the run-time panic that ends the program. -/
def parseRateLimit (rtLmt : GoString) : Except String (Int × Int) := do
  let first ← indexPart (stringsSplit (byteOf 44) rtLmt) 0
  let rl := match Atoi first with
    | .error _ => 10
    | .ok v => v
  let second ← indexPart (stringsSplit (byteOf 44) rtLmt) 1
  let bl := match Atoi second with
    | .error _ => 10
    | .ok v => v
  return (rl, bl)

/-! ## Observations on a run -/

/-- The platform actions a run from world `w` added to the trace (none when it panicked). -/
def issued {α : Type} (w : World) (r : Res α) : List Event :=
  match r with
  | .ok _ w' => w'.trace.drop w.trace.length
  | .panic _ => []

/-- The cursor moves among some platform actions, in order: target and smoothing pair. -/
def cursorMoves : List Event → List (Int × Int × Float × Float)
  | [] => []
  | .moveSmooth x y low high :: rest => (x, y, low, high) :: cursorMoves rest
  | _ :: rest => cursorMoves rest

/-- Whether the draw `getRandInt(0, 1)` that `moveToWithJitter` makes after its thirty loop
draws comes out positive, so that the circular detour is taken. -/
def detourTaken (w : World) : Bool :=
  match w.entropy (w.reads + 30) with
  | .error _ => false
  | .ok k => k % 2 == 1

/-- The value `getRandInt min max` returns in world `w` when `rand.Int` reads the entropy
source, which it does for a range size of 2 or more. -/
def drawn (min max : Int) (w : World) : Int :=
  match w.entropy w.reads with
  | .error _ => 0
  | .ok k => wrapInt (min + (k : Int) % wrapInt (wrapInt (max - min) + 1))

/-- A world whose entropy source fails on every read. -/
def worldNoEntropy : World :=
  ⟨fun _ => .error ⟨.cryptoRand, goStr "read failed"⟩, 0, fun _ => none, 0, fun _ => (0, 0), 0,
    fun _ => true, 0, []⟩

/-- A world whose entropy source answers every read with the raw value `k`. -/
def worldConst (k : Nat) : World :=
  ⟨fun _ => .ok k, 0, fun _ => none, 0, fun _ => (0, 0), 0, fun _ => true, 0, []⟩

/-- The platform actions proper among some trace entries: everything but the pauses. -/
def actions : List Event → List Event
  | [] => []
  | .sleep _ :: rest => actions rest
  | e :: rest => e :: actions rest

/-- The payloads of the genuine character emissions, in order. -/
def genuinePayloads : List Event → List GoString
  | [] => []
  | .typeStr .genuine p :: rest => p :: genuinePayloads rest
  | _ :: rest => genuinePayloads rest

/-- Remove every typo emission that is immediately followed by a successful Backspace. -/
def stripCorrected : List Event → List Event
  | [] => []
  | .typeStr .typo p :: .keyTap k none :: rest =>
    if k = backspace then stripCorrected rest
    else .typeStr .typo p :: .keyTap k none :: stripCorrected rest
  | e :: rest => e :: stripCorrected rest

/-- The errors of the key taps that failed, in order. -/
def failedTaps : List Event → List GoError
  | [] => []
  | .keyTap _ (some e) :: rest => e :: failedTaps rest
  | _ :: rest => failedTaps rest

/-- The trace of a typing loop that ran through the given runes: for each rune its genuine
emission and pause, preceded or not by a typo, a pause and a successful Backspace. -/
inductive Typed : List Rune → List Event → Prop where
  | done : Typed [] []
  | plain (c : Rune) (rest : List Rune) (evs : List Event) (d : Int) :
      Typed rest evs →
      Typed (c :: rest) (.typeStr .genuine (encodeRune c) :: .sleep d :: evs)
  | corrected (c : Rune) (rest : List Rune) (evs : List Event) (p : GoString) (d1 d2 : Int) :
      Typed rest evs →
      Typed (c :: rest) (.typeStr .typo p :: .sleep d1 :: .keyTap backspace none ::
        .typeStr .genuine (encodeRune c) :: .sleep d2 :: evs)

/-- The platform actions proper (pauses left out) that `TypeStr(str)` performs from `w`. -/
def typingActions (str : GoString) (w : World) : List Event :=
  actions (issued w (TypeStr str w))

/-- The five action names `executeCommand` has a case for. -/
def knownActions : List GoString :=
  [goStr "moveMouse", goStr "click", goStr "right_click", goStr "type", goStr "keyTap"]

/-- The payloads of the typo emissions, in order. -/
def typoPayloads : List Event → List GoString
  | [] => []
  | .typeStr .typo p :: rest => p :: typoPayloads rest
  | _ :: rest => typoPayloads rest

/-- The world after the rate limiter has been asked once, and nothing else has happened. -/
def World.asked (w : World) : World := { w with asks := w.asks + 1 }

/-- The text made of the single character U+00E9 (e with acute accent), two bytes in UTF-8. -/
def textEAcute : String := String.mk [Char.ofNat 0xE9]

/-- A decoder that answers every body with the command of action `"foo"`. -/
def decodeFoo : GoString → Except GoError Command :=
  fun _ => .ok ⟨goStr "foo", 0, 0, []⟩

/-- A world whose entropy source answers every read with 0 and whose platform fails every
key tap. -/
def worldTapFails : World :=
  ⟨fun _ => .ok 0, 0, fun _ => some (goStr "key tap failed"), 0, fun _ => (0, 0), 0,
    fun _ => true, 0, []⟩

/-! ## Running sequenced code -/

theorem bind_ok {α β : Type} {m : Sim α} {f : α → Sim β} {w w' : World} {a : α}
    (h : m w = .ok a w') : (m >>= f) w = f a w' := by
  show Sim.bind m f w = f a w'
  simp [Sim.bind, h]

theorem bind_panic {α β : Type} {m : Sim α} {f : α → Sim β} {w : World} {msg : String}
    (h : m w = .panic msg) : (m >>= f) w = .panic msg := by
  show Sim.bind m f w = _
  simp [Sim.bind, h]

theorem pure_run {α : Type} (a : α) (w : World) : (pure a : Sim α) w = .ok a w := rfl

theorem wrapInt_eq_self {x : Int} (h : IsGoInt x) : wrapInt x = x := by
  unfold IsGoInt at h
  unfold wrapInt
  omega

theorem isGoInt_wrapInt (x : Int) : IsGoInt (wrapInt x) := by
  unfold IsGoInt wrapInt
  omega

/-- When the wrapped range size is positive no overflow took place. -/
theorem range_exact {min max : Int} (hmin : IsGoInt min) (hmax : IsGoInt max) (hle : min ≤ max)
    (hpos : 0 < wrapInt (wrapInt (max - min) + 1)) :
    wrapInt (wrapInt (max - min) + 1) = max - min + 1 := by
  unfold IsGoInt at hmin hmax
  unfold wrapInt at hpos ⊢
  omega

theorem randInt_run (max : Int) (w : World) (h : 1 < max) :
    randInt max w = .ok (match w.entropy w.reads with
      | .error e => .error e
      | .ok k => .ok ((k : Int) % max)) w.tick := by
  unfold randInt
  rw [if_neg (by omega), if_neg (by omega)]
  cases w.entropy w.reads <;> rfl

theorem randInt_one (w : World) : randInt 1 w = .ok (.ok 0) w := rfl

theorem getRandInt_ok (min max : Int) (w : World)
    (h : 1 < wrapInt (wrapInt (max - min) + 1)) :
    getRandInt min max w = .ok (drawn min max w) w.tick := by
  unfold getRandInt
  rw [bind_ok (randInt_run _ w h)]
  unfold drawn
  cases w.entropy w.reads <;> rfl

theorem getRandInt_one (min max : Int) (w : World)
    (h : wrapInt (wrapInt (max - min) + 1) = 1) :
    getRandInt min max w = .ok (wrapInt (min + 0)) w := by
  unfold getRandInt
  rw [h, bind_ok (randInt_one w)]
  rfl

theorem getRandInt_panic (min max : Int) (w : World)
    (h : wrapInt (wrapInt (max - min) + 1) ≤ 0) :
    getRandInt min max w = .panic "crypto/rand: argument to Int is <= 0" := by
  unfold getRandInt
  have hr : randInt (wrapInt (wrapInt (max - min) + 1)) w =
      .panic "crypto/rand: argument to Int is <= 0" := by
    unfold randInt
    rw [if_pos h]
  rw [bind_panic hr]

/-- Claim C5: for Go integers `min <= max`, whenever the entropy source, asked for the
range size `max - min + 1` that `getRandInt` computes, returns the value `n`, that value
satisfies `0 <= n <= max - min` and `getRandInt(min, max)` returns `min + n`, an integer of
the closed interval `[min, max]`.  (A range size beyond the largest `int` wraps to a value
`<= 0`, for which `rand.Int` panics and the source returns no value at all.) -/
theorem getRandInt_in_interval (min max n : Int) (w w' : World)
    (hmin : IsGoInt min) (hmax : IsGoInt max) (hle : min ≤ max)
    (hsrc : randInt (wrapInt (wrapInt (max - min) + 1)) w = .ok (.ok n) w') :
    (0 ≤ n ∧ n ≤ max - min) ∧ getRandInt min max w = .ok (min + n) w' ∧
      (min ≤ min + n ∧ min + n ≤ max) := by
  have hpos : 0 < wrapInt (wrapInt (max - min) + 1) := by
    by_contra hneg
    unfold randInt at hsrc
    rw [if_pos (by omega)] at hsrc
    cases hsrc
  have hR := range_exact hmin hmax hle hpos
  by_cases hone : wrapInt (wrapInt (max - min) + 1) = 1
  · have hget := getRandInt_one min max w hone
    rw [hone, randInt_one] at hsrc
    simp only [Res.ok.injEq, Except.ok.injEq] at hsrc
    obtain ⟨hn, hw⟩ := hsrc
    subst hn
    subst hw
    rw [wrapInt_eq_self (by simpa using hmin)] at hget
    exact ⟨⟨by omega, by omega⟩, hget, by omega, by omega⟩
  · have hbig : 1 < wrapInt (wrapInt (max - min) + 1) := by omega
    rw [randInt_run _ w hbig] at hsrc
    have hget := getRandInt_ok min max w hbig
    unfold drawn at hget
    cases hk : w.entropy w.reads with
    | error e => rw [hk] at hsrc; cases hsrc
    | ok k =>
      rw [hk] at hsrc hget
      simp only [Res.ok.injEq, Except.ok.injEq] at hsrc
      obtain ⟨hn, hw⟩ := hsrc
      have h0 : 0 ≤ (k : Int) % wrapInt (wrapInt (max - min) + 1) :=
        Int.emod_nonneg _ (by omega)
      have h1 : (k : Int) % wrapInt (wrapInt (max - min) + 1)
          < wrapInt (wrapInt (max - min) + 1) := Int.emod_lt_of_pos _ hpos
      rw [hn] at h0 h1
      rw [hR] at h1
      have hin : IsGoInt (min + n) := by
        unfold IsGoInt at hmin hmax ⊢
        omega
      simp only [hn, wrapInt_eq_self hin, hw] at hget
      exact ⟨⟨h0, by omega⟩, hget, by omega, by omega⟩

/-- The ranges the program draws from, each at a concrete entropy value: jitter `[-2, 2]`,
waypoint delay `[10, 50]`, detour radius `[16, 50]`, typing delay `[50, 300]`, and the typo
index `[0, len - 1]` of a text of three bytes. -/
theorem getRandInt_in_interval_witness :
    (((0 : Int) ≤ 2 ∧ (2 : Int) ≤ 2 - (-2)) ∧
      getRandInt (-2) 2 (worldConst 7) = .ok (-2 + 2) (worldConst 7).tick ∧
      ((-2 : Int) ≤ -2 + 2 ∧ (-2 : Int) + 2 ≤ 2)) ∧
    (((0 : Int) ≤ 7 ∧ (7 : Int) ≤ 50 - 10) ∧
      getRandInt 10 50 (worldConst 7) = .ok (10 + 7) (worldConst 7).tick ∧
      ((10 : Int) ≤ 10 + 7 ∧ (10 : Int) + 7 ≤ 50)) ∧
    (((0 : Int) ≤ 7 ∧ (7 : Int) ≤ 50 - 16) ∧
      getRandInt 16 50 (worldConst 7) = .ok (16 + 7) (worldConst 7).tick ∧
      ((16 : Int) ≤ 16 + 7 ∧ (16 : Int) + 7 ≤ 50)) ∧
    (((0 : Int) ≤ 7 ∧ (7 : Int) ≤ 300 - 50) ∧
      getRandInt 50 300 (worldConst 7) = .ok (50 + 7) (worldConst 7).tick ∧
      ((50 : Int) ≤ 50 + 7 ∧ (50 : Int) + 7 ≤ 300)) ∧
    (((0 : Int) ≤ 1 ∧ (1 : Int) ≤ 2 - 0) ∧
      getRandInt 0 2 (worldConst 7) = .ok (0 + 1) (worldConst 7).tick ∧
      ((0 : Int) ≤ 0 + 1 ∧ (0 : Int) + 1 ≤ 2)) :=
  ⟨getRandInt_in_interval (-2) 2 2 (worldConst 7) (worldConst 7).tick (by decide) (by decide)
      (by decide) rfl,
    getRandInt_in_interval 10 50 7 (worldConst 7) (worldConst 7).tick (by decide) (by decide)
      (by decide) rfl,
    getRandInt_in_interval 16 50 7 (worldConst 7) (worldConst 7).tick (by decide) (by decide)
      (by decide) rfl,
    getRandInt_in_interval 50 300 7 (worldConst 7) (worldConst 7).tick (by decide) (by decide)
      (by decide) rfl,
    getRandInt_in_interval 0 2 1 (worldConst 7) (worldConst 7).tick (by decide) (by decide)
      (by decide) rfl⟩

/-! ## Trajectory -/

theorem cursorMoves_append (xs ys : List Event) :
    cursorMoves (xs ++ ys) = cursorMoves xs ++ cursorMoves ys := by
  induction xs with
  | nil => rfl
  | cons e rest ih => cases e <;> simp [cursorMoves, ih]

theorem jitterStep_run (startX startY endX endY : Int) (speed velocity : Float) (steps i : Int)
    (w : World) : ∃ x y d, jitterStep startX startY endX endY speed velocity steps i w =
      .ok () { w with reads := w.reads + 3,
                      trace := w.trace ++ [.moveSmooth x y speed velocity, .sleep d] } := by
  unfold jitterStep
  simp only []
  rw [bind_ok (getRandInt_ok (-2) 2 w (by decide))]
  rw [bind_ok (getRandInt_ok (-2) 2 _ (by decide))]
  rw [bind_ok (rfl : MoveSmooth _ _ speed velocity w.tick.tick = .ok () _)]
  rw [bind_ok (getRandInt_ok 10 50 _ (by decide))]
  simp only [sleepMillis, World.emit, World.tick, List.append_assoc, List.singleton_append]
  exact ⟨_, _, _, rfl⟩

theorem jitterLoop_run (startX startY endX endY : Int) (speed velocity : Float) (steps : Int)
    (n : Nat) : ∀ (i : Int) (w : World), ∃ evs,
      jitterLoop startX startY endX endY speed velocity steps n i w =
        .ok () { w with reads := w.reads + 3 * n, trace := w.trace ++ evs } ∧
      (cursorMoves evs).length = n := by
  induction n with
  | zero => intro i w; exact ⟨[], by simp [jitterLoop, pure_run], rfl⟩
  | succ n ih =>
    intro i w
    obtain ⟨x, y, d, hstep⟩ := jitterStep_run startX startY endX endY speed velocity steps i w
    obtain ⟨evs, hrest, hcount⟩ := ih (i + 1)
      { w with reads := w.reads + 3,
               trace := w.trace ++ [.moveSmooth x y speed velocity, .sleep d] }
    refine ⟨[.moveSmooth x y speed velocity, .sleep d] ++ evs, ?_, ?_⟩
    · unfold jitterLoop
      rw [bind_ok hstep, hrest]
      simp [Nat.mul_succ, Nat.add_assoc, Nat.add_comm]
    · simp [cursorMoves, hcount]

theorem circleLoop_run (centerX centerY : Int) (r : Float) (p : Int) (clockwise : Bool)
    (steps : Int) (s v : Float) (n : Nat) : ∀ (i : Int) (w : World), ∃ evs,
      circleLoop centerX centerY r p clockwise steps s v n i w =
        .ok () { w with trace := w.trace ++ evs } ∧
      (cursorMoves evs).length = n := by
  induction n with
  | zero => intro i w; exact ⟨[], by simp [circleLoop, pure_run], rfl⟩
  | succ n ih =>
    intro i w
    have hstep : ∃ x y, circleStep centerX centerY r p clockwise steps s v i w =
        .ok () { w with trace := w.trace ++ [.moveSmooth x y s v, .sleep p] } := by
      unfold circleStep
      rw [bind_ok (rfl : MoveSmooth _ _ s v w = .ok () _)]
      simp only [sleepMillis, World.emit, List.append_assoc, List.singleton_append]
      exact ⟨_, _, rfl⟩
    obtain ⟨x, y, hstep⟩ := hstep
    obtain ⟨evs, hrest, hcount⟩ := ih (i + 1)
      { w with trace := w.trace ++ [.moveSmooth x y s v, .sleep p] }
    refine ⟨[.moveSmooth x y s v, .sleep p] ++ evs, ?_, ?_⟩
    · unfold circleLoop
      rw [bind_ok hstep, hrest]
      simp
    · simp [cursorMoves, hcount]

theorem pseudoCircularMovement_run (x y steps : Int) (s v : Float) (w : World) : ∃ evs,
    pseudoCircularMovement x y steps s v w =
      .ok () { w with reads := w.reads + 3, looks := w.looks + 1, trace := w.trace ++ evs } ∧
    (cursorMoves evs).length = (steps + 1).toNat + 2 := by
  unfold pseudoCircularMovement
  rw [bind_ok (getRandInt_ok 16 50 w (by decide))]
  rw [bind_ok (getRandInt_ok 5 50 _ (by decide))]
  rw [bind_ok (getRandInt_ok 0 1 _ (by decide))]
  simp only []
  rw [bind_ok (rfl : Location w.tick.tick.tick = .ok _ _)]
  rw [bind_ok (rfl : MoveSmooth x y s v _ = .ok () _)]
  rw [bind_ok (rfl : sleepMillis _ _ = .ok () _)]
  obtain ⟨evs, hloop, hcount⟩ := circleLoop_run
    (wrapInt (x - floatToInt (Float.ofInt (drawn 16 50 w) * Float.cos (mathPi / 2))))
    (wrapInt (y - floatToInt (Float.ofInt (drawn 16 50 w) * Float.sin (mathPi / 2))))
    (Float.ofInt (drawn 16 50 w)) (drawn 5 50 w.tick) (drawn 0 1 w.tick.tick == 0) steps s v
    (steps + 1).toNat 0
    (({ w.tick.tick.tick with looks := w.tick.tick.tick.looks + 1 }.emit
      (.moveSmooth x y s v)).emit (.sleep (drawn 5 50 w.tick)))
  rw [bind_ok hloop]
  refine ⟨[.moveSmooth x y s v, .sleep (drawn 5 50 w.tick)] ++ evs ++
    [.moveSmooth (w.cursor w.looks).1 (w.cursor w.looks).2 s v], ?_, ?_⟩
  · simp [MoveSmooth, World.emit, World.tick]
  · simp [cursorMoves_append, cursorMoves, hcount]

theorem detour_decision (w : World) (n : Nat) (evs : List Event) (h : n = 30) :
    (drawn 0 1 { w with reads := w.reads + n, trace := w.trace ++ evs } > 0) ↔
      detourTaken w = true := by
  subst h
  unfold drawn detourTaken
  have h2 : wrapInt (wrapInt (1 - 0) + 1) = 2 := by decide
  rw [h2]
  cases w.entropy (w.reads + 30) with
  | error e => simp
  | ok k =>
    simp only [beq_iff_eq]
    unfold wrapInt
    omega

/-- The run of `moveToWithJitter`: it returns, and its platform actions end with the move to
the end point, after ten jittered moves and, when the detour is taken, thirteen more. -/
theorem moveToWithJitter_run (startX startY endX endY : Int) (speed velocity : Float)
    (w : World) : ∃ w' evs,
      moveToWithJitter startX startY endX endY speed velocity w = .ok () w' ∧
      w'.trace = w.trace ++ (evs ++ [.moveSmooth endX endY speed velocity]) ∧
      (cursorMoves evs).length = if detourTaken w then 23 else 10 := by
  unfold moveToWithJitter
  simp only []
  obtain ⟨evs, hloop, hcount⟩ :=
    jitterLoop_run startX startY endX endY speed velocity 10 (10 : Int).toNat 0 w
  rw [bind_ok hloop]
  rw [bind_ok (getRandInt_ok 0 1 _ (by decide))]
  have hdec := detour_decision w (3 * (10 : Int).toNat) evs (by decide)
  by_cases hd : detourTaken w = true
  · rw [if_pos (hdec.mpr hd)]
    obtain ⟨cevs, hcirc, hccount⟩ := pseudoCircularMovement_run endX endY 10 speed velocity
      ({ w with reads := w.reads + 3 * (10 : Int).toNat, trace := w.trace ++ evs } : World).tick
    rw [bind_ok hcirc]
    refine ⟨_, evs ++ cevs, rfl, ?_, ?_⟩
    · simp [World.emit, World.tick]
    · rw [if_pos hd, cursorMoves_append, List.length_append, hcount, hccount]
      decide
  · rw [if_neg (fun h => hd (hdec.mp h))]
    rw [bind_ok (pure_run PUnit.unit _)]
    refine ⟨_, evs, rfl, ?_, ?_⟩
    · simp [World.emit, World.tick]
    · rw [if_neg hd, hcount]
      decide

/-- Claim C1: for every start, end, speed, velocity and every world (every outcome of the
random draws and of the cursor position queries), `moveToWithJitter` returns, the ordered
sequence of cursor moves it issued is not empty, and its last move is the move to
`(endX, endY)` with the given speed and velocity. -/
theorem moveToWithJitter_ends_at_target (startX startY endX endY : Int) (speed velocity : Float)
    (w : World) :
    ∃ w', moveToWithJitter startX startY endX endY speed velocity w = .ok () w' ∧
      cursorMoves (issued w (moveToWithJitter startX startY endX endY speed velocity w)) ≠ [] ∧
      (cursorMoves (issued w (moveToWithJitter startX startY endX endY speed velocity w))).getLast?
        = some (endX, endY, speed, velocity) := by
  obtain ⟨w', evs, hrun, htrace, _⟩ :=
    moveToWithJitter_run startX startY endX endY speed velocity w
  refine ⟨w', hrun, ?_, ?_⟩
  · rw [hrun]
    simp [issued, htrace, cursorMoves_append, cursorMoves]
  · rw [hrun]
    simp [issued, htrace, cursorMoves_append, cursorMoves]

/-- Claim C7, amended: one call of `moveToWithJitter` issues exactly 11 cursor moves when
the detour is not taken (ten jittered moves and the final move) and exactly 24 when it is
(the detour adds the move to the end point, `steps + 1 = 11` circle moves and the move back
to the position it started from). -/
theorem moveToWithJitter_move_count (startX startY endX endY : Int) (speed velocity : Float)
    (w : World) :
    ∃ w', moveToWithJitter startX startY endX endY speed velocity w = .ok () w' ∧
      (cursorMoves (issued w (moveToWithJitter startX startY endX endY speed velocity w))).length
        = if detourTaken w then 24 else 11 := by
  obtain ⟨w', evs, hrun, htrace, hcount⟩ :=
    moveToWithJitter_run startX startY endX endY speed velocity w
  refine ⟨w', hrun, ?_⟩
  rw [hrun]
  simp only [issued, htrace, List.drop_left, cursorMoves_append, List.length_append, hcount,
    cursorMoves, List.length_cons, List.length_nil]
  split <;> rfl

/-- Claim C7 fails as stated: without the detour the call issues 11 moves, not 10, and with
the detour 24, not 21. -/
theorem moveToWithJitter_count_not_ten :
    (detourTaken (worldConst 0) = false ∧
      (cursorMoves (issued (worldConst 0)
        (moveToWithJitter 0 0 100 200 1 1 (worldConst 0)))).length ≠ 10) ∧
    (detourTaken (worldConst 1) = true ∧
      (cursorMoves (issued (worldConst 1)
        (moveToWithJitter 0 0 100 200 1 1 (worldConst 1)))).length ≠ 21) := by
  decide

theorem byteOf_val (n : Nat) : (byteOf n).val = n % 256 := rfl

theorem decodeRune_one (n : Nat) (h : n < 0x80) (rest : GoString) :
    decodeRune (byteOf n :: rest) = (n, 1) := by
  have hv : (byteOf n).val = n := by rw [byteOf_val]; omega
  unfold decodeRune
  simp only [hv]
  rw [if_pos h]

theorem decodeRune_two (n : Nat) (h1 : 0x80 ≤ n) (h2 : n < 0x800) (rest : GoString) :
    decodeRune (byteOf (0xC0 + n / 64) :: byteOf (0x80 + n % 64) :: rest) = (n, 2) := by
  have hv0 : (byteOf (0xC0 + n / 64)).val = 0xC0 + n / 64 := by rw [byteOf_val]; omega
  have hv1 : (byteOf (0x80 + n % 64)).val = 0x80 + n % 64 := by rw [byteOf_val]; omega
  unfold decodeRune
  simp only [hv0, hv1, isCont]
  rw [if_neg (by omega), if_pos (by omega)]
  simp only [ge_iff_le, decide_eq_true_eq, Bool.and_eq_true]
  rw [if_pos (by omega)]
  have hr : (0xC0 + n / 64) % 32 * 64 + (0x80 + n % 64) % 64 = n := by omega
  simp only [hr]
  rw [if_pos (by omega)]

theorem decodeRune_three (n : Nat) (h1 : 0x800 ≤ n) (h2 : n < 0x10000)
    (hs : ¬ (0xD800 ≤ n ∧ n ≤ 0xDFFF)) (rest : GoString) :
    decodeRune (byteOf (0xE0 + n / 4096) :: byteOf (0x80 + n / 64 % 64) ::
      byteOf (0x80 + n % 64) :: rest) = (n, 3) := by
  have hv0 : (byteOf (0xE0 + n / 4096)).val = 0xE0 + n / 4096 := by rw [byteOf_val]; omega
  have hv1 : (byteOf (0x80 + n / 64 % 64)).val = 0x80 + n / 64 % 64 := by
    rw [byteOf_val]; omega
  have hv2 : (byteOf (0x80 + n % 64)).val = 0x80 + n % 64 := by rw [byteOf_val]; omega
  unfold decodeRune
  simp only [hv0, hv1, hv2, isCont]
  rw [if_neg (by omega), if_neg (by omega), if_pos (by omega)]
  simp only [ge_iff_le, decide_eq_true_eq, Bool.and_eq_true]
  rw [if_pos (by omega)]
  have hr : (0xE0 + n / 4096) % 16 * 4096 + (0x80 + n / 64 % 64) % 64 * 64
      + (0x80 + n % 64) % 64 = n := by omega
  simp only [hr]
  rw [if_pos (by omega)]

theorem decodeRune_four (n : Nat) (h1 : 0x10000 ≤ n) (h2 : n ≤ 0x10FFFF) (rest : GoString) :
    decodeRune (byteOf (0xF0 + n / 262144) :: byteOf (0x80 + n / 4096 % 64) ::
      byteOf (0x80 + n / 64 % 64) :: byteOf (0x80 + n % 64) :: rest) = (n, 4) := by
  have hv0 : (byteOf (0xF0 + n / 262144)).val = 0xF0 + n / 262144 := by rw [byteOf_val]; omega
  have hv1 : (byteOf (0x80 + n / 4096 % 64)).val = 0x80 + n / 4096 % 64 := by
    rw [byteOf_val]; omega
  have hv2 : (byteOf (0x80 + n / 64 % 64)).val = 0x80 + n / 64 % 64 := by
    rw [byteOf_val]; omega
  have hv3 : (byteOf (0x80 + n % 64)).val = 0x80 + n % 64 := by rw [byteOf_val]; omega
  unfold decodeRune
  simp only [hv0, hv1, hv2, hv3, isCont]
  rw [if_neg (by omega), if_neg (by omega), if_neg (by omega), if_pos (by omega)]
  simp only [ge_iff_le, decide_eq_true_eq, Bool.and_eq_true]
  rw [if_pos (by omega)]
  have hr : (0xF0 + n / 262144) % 8 * 262144 + (0x80 + n / 4096 % 64) % 64 * 4096
      + (0x80 + n / 64 % 64) % 64 * 64 + (0x80 + n % 64) % 64 = n := by omega
  simp only [hr]
  rw [if_pos (by omega)]

/-- A valid code point: not a surrogate and at most U+10FFFF. -/
theorem char_valid (c : Char) : c.toNat < 0xD800 ∨ (0xDFFF < c.toNat ∧ c.toNat < 0x110000) :=
  c.valid

/-- Ranging over the encoding of a character followed by more bytes visits the character,
then what ranging over the remaining bytes visits. -/
theorem rangeRunes_encode (c : Char) (rest : GoString) :
    rangeRunesAux 0 (encodeRune c.toNat ++ rest) = c.toNat :: rangeRunesAux 0 rest := by
  have hvalid := char_valid c
  generalize c.toNat = n at hvalid
  unfold encodeRune
  by_cases h1 : n < 0x80
  · rw [if_pos h1]
    show rangeRunesAux 0 (byteOf n :: rest) = _
    rw [rangeRunesAux, decodeRune_one n h1]
    rfl
  · rw [if_neg h1]
    by_cases h2 : n < 0x800
    · rw [if_pos h2]
      show rangeRunesAux 0 (byteOf (0xC0 + n / 64) :: byteOf (0x80 + n % 64) :: rest) = _
      rw [rangeRunesAux, decodeRune_two n (by omega) h2]
      simp only [rangeRunesAux, Nat.add_one_sub_one]
    · rw [if_neg h2,
        if_neg (show ¬ (0x10FFFF < n ∨ (0xD800 ≤ n ∧ n ≤ 0xDFFF)) by omega)]
      by_cases h3 : n < 0x10000
      · rw [if_pos h3]
        show rangeRunesAux 0 (byteOf (0xE0 + n / 4096) :: byteOf (0x80 + n / 64 % 64) ::
          byteOf (0x80 + n % 64) :: rest) = _
        rw [rangeRunesAux, decodeRune_three n (by omega) h3 (by omega)]
        simp only [rangeRunesAux, Nat.add_one_sub_one]
      · rw [if_neg h3]
        show rangeRunesAux 0 (byteOf (0xF0 + n / 262144) :: byteOf (0x80 + n / 4096 % 64) ::
          byteOf (0x80 + n / 64 % 64) :: byteOf (0x80 + n % 64) :: rest) = _
        rw [rangeRunesAux, decodeRune_four n (by omega) (by omega)]
        simp only [rangeRunesAux, Nat.add_one_sub_one]

theorem rangeRunes_encodeChars (cs : List Char) :
    rangeRunes (encodeChars cs) = cs.map Char.toNat := by
  unfold rangeRunes encodeChars
  induction cs with
  | nil => rfl
  | cons c rest ih =>
    simp only [List.map_cons, List.flatten_cons]
    rw [rangeRunes_encode, ih]

theorem typo_range (len : Int) (hpos : 0 < len) (hlen : len ≤ 9223372036854775807) :
    wrapInt (wrapInt (wrapInt (len - 1) - 0) + 1) = len := by
  unfold wrapInt
  omega

/-- The draw of the typo index returns a position of `str`; it reads the entropy source
unless `str` has a single byte. -/
theorem typo_index (str : GoString) (hpos : 0 < str.length)
    (hlen : (str.length : Int) ≤ 9223372036854775807) (w : World) :
    ∃ v n, getRandInt 0 (wrapInt ((str.length : Int) - 1)) w
        = .ok v { w with reads := w.reads + n } ∧
      0 ≤ v ∧ v.toNat < str.length := by
  have hR := typo_range (str.length : Int) (by omega) hlen
  by_cases hone : (str.length : Int) = 1
  · refine ⟨wrapInt (0 + 0), 0, getRandInt_one 0 _ w (by rw [hR, hone]), by decide, ?_⟩
    have : wrapInt (0 + 0) = 0 := by decide
    rw [this]
    simpa using hpos
  · refine ⟨drawn 0 (wrapInt ((str.length : Int) - 1)) w, 1,
      getRandInt_ok 0 _ w (by rw [hR]; omega), ?_⟩
    unfold drawn
    rw [hR]
    cases w.entropy w.reads with
    | error e => simp only; omega
    | ok k =>
      simp only
      have h0 : 0 ≤ (k : Int) % (str.length : Int) := Int.emod_nonneg _ (by omega)
      have h1 : (k : Int) % (str.length : Int) < (str.length : Int) :=
        Int.emod_lt_of_pos _ (by omega)
      generalize (k : Int) % (str.length : Int) = m at h0 h1
      unfold wrapInt
      omega

theorem typoBlock_run (str : GoString) (hpos : 0 < str.length)
    (hlen : (str.length : Int) ≤ 9223372036854775807) (w : World) :
    ∃ j b d n, str.get? j = some b ∧ typoBlock str w =
      .ok ((w.keyTapResult w.taps).map (GoError.mk .robotgo))
        { w with reads := w.reads + n, taps := w.taps + 1,
                 trace := w.trace ++ [.typeStr .typo (encodeRune b.val), .sleep d,
                   .keyTap backspace ((w.keyTapResult w.taps).map (GoError.mk .robotgo))] } := by
  obtain ⟨v, n, hdraw, hv0, hv1⟩ := typo_index str hpos hlen w
  obtain ⟨b, hb⟩ : ∃ b, str.get? v.toNat = some b := ⟨_, List.get?_eq_get hv1⟩
  have hidx : indexByte str v { w with reads := w.reads + n }
      = .ok b { w with reads := w.reads + n } := by
    unfold indexByte
    rw [if_neg (by omega), hb]
  refine ⟨_, b, drawn 100 300
    (World.emit { w with reads := w.reads + n } (.typeStr .typo (encodeRune b.val))),
    n + 1, hb, ?_⟩
  unfold typoBlock
  rw [bind_ok hdraw]
  rw [bind_ok hidx]
  rw [bind_ok (rfl : robotTypeStr .typo _ _ = .ok () _)]
  rw [bind_ok (getRandInt_ok 100 300 _ (by decide))]
  rw [bind_ok (rfl : sleepMillis _ _ = .ok () _)]
  simp [KeyTap, World.emit, World.tick, Nat.add_assoc]

theorem typoAttempt_run (str : GoString) (hpos : 0 < str.length)
    (hlen : (str.length : Int) ≤ 9223372036854775807) (w : World) :
    ∃ r w' evs, typoAttempt str w = .ok r w' ∧ w'.trace = w.trace ++ evs ∧
      w'.keyTapResult = w.keyTapResult ∧
      ((r = none ∧ (evs = [] ∨
          ∃ p d, evs = [.typeStr .typo p, .sleep d, .keyTap backspace none])) ∨
        (∃ e p d k, r = some e ∧
          evs = [.typeStr .typo p, .sleep d, .keyTap backspace (some e)] ∧
          (w.keyTapResult k).map (GoError.mk .robotgo) = some e)) := by
  unfold typoAttempt
  rw [bind_ok (getRandInt_ok 0 100 w (by decide))]
  by_cases hty : drawn 0 100 w < 5
  · rw [if_pos hty]
    obtain ⟨j, b, d, n, _, hblock⟩ := typoBlock_run str hpos hlen w.tick
    refine ⟨_, _, _, hblock, rfl, rfl, ?_⟩
    cases hk : (w.tick.keyTapResult w.tick.taps).map (GoError.mk .robotgo) with
    | some e => exact Or.inr ⟨e, _, d, w.taps, rfl, rfl, hk⟩
    | none => exact Or.inl ⟨rfl, Or.inr ⟨_, d, rfl⟩⟩
  · rw [if_neg hty]
    exact ⟨none, w.tick, [], rfl, by simp [World.tick], rfl, Or.inl ⟨rfl, Or.inl rfl⟩⟩

theorem genuine_run {β : Type} (p : GoString) (f : Sim β) (w : World) :
    ∃ d w', (do
        robotTypeStr .genuine p
        sleepMillis (← getRandInt 50 300)
        f : Sim β) w = f w' ∧
      w'.trace = w.trace ++ [.typeStr .genuine p, .sleep d] ∧
      w'.keyTapResult = w.keyTapResult := by
  rw [bind_ok (rfl : robotTypeStr .genuine p w = .ok () _)]
  rw [bind_ok (getRandInt_ok 50 300 _ (by decide))]
  rw [bind_ok (rfl : sleepMillis _ _ = .ok () _)]
  refine ⟨drawn 50 300 (w.emit (.typeStr .genuine p)), _, rfl, ?_, rfl⟩
  simp [World.emit, World.tick]

/-- The typing loop always returns: either nil after typing every rune, or the error of a
failed Backspace, right after that key tap. -/
theorem typeLoop_run (str : GoString) (hpos : 0 < str.length)
    (hlen : (str.length : Int) ≤ 9223372036854775807) (runes : List Rune) :
    ∀ w : World, ∃ r w' evs, typeLoop str runes w = .ok r w' ∧ w'.trace = w.trace ++ evs ∧
      ((r = none ∧ Typed runes evs) ∨
        (∃ e pre typed p d k, r = some e ∧
          evs = pre ++ [.typeStr .typo p, .sleep d, .keyTap backspace (some e)] ∧
          Typed typed pre ∧ (w.keyTapResult k).map (GoError.mk .robotgo) = some e)) := by
  induction runes with
  | nil =>
    intro w
    exact ⟨none, w, [], rfl, by simp, Or.inl ⟨rfl, Typed.done⟩⟩
  | cons c rest ih =>
    intro w
    unfold typeLoop
    obtain ⟨r1, w1, evs1, hatt, htr1, hkt1, hshape1⟩ := typoAttempt_run str hpos hlen w
    rw [bind_ok hatt]
    rcases hshape1 with ⟨hr1, hev1⟩ | ⟨e, p, d, k, hr1, hev1, hk⟩
    · subst hr1
      simp only []
      obtain ⟨d2, w2, hgen, htr2, hkt2⟩ := genuine_run (encodeRune c) (typeLoop str rest) w1
      rw [hgen]
      obtain ⟨r, w', evs, hrun, htrace, hshape⟩ := ih w2
      refine ⟨r, w', evs1 ++ [.typeStr .genuine (encodeRune c), .sleep d2] ++ evs, hrun, ?_, ?_⟩
      · rw [htrace, htr2, htr1]
        simp
      · rcases hshape with ⟨hr, hty⟩ | ⟨e, pre, typed, p, d', k, hr, hevs, htyped, hk'⟩
        · refine Or.inl ⟨hr, ?_⟩
          rcases hev1 with h | ⟨p, d, h⟩
          · subst h
            exact Typed.plain c rest evs d2 hty
          · subst h
            exact Typed.corrected c rest evs p d d2 hty
        · rw [hkt2, hkt1] at hk'
          refine Or.inr ⟨e, evs1 ++ [.typeStr .genuine (encodeRune c), .sleep d2] ++ pre,
            c :: typed, p, d', k, hr, ?_, ?_, hk'⟩
          · rw [hevs]
            simp
          · rcases hev1 with h | ⟨p, d, h⟩
            · subst h
              exact Typed.plain c typed pre d2 htyped
            · subst h
              exact Typed.corrected c typed pre p d d2 htyped
    · subst hr1
      refine ⟨some e, w1, evs1, rfl, htr1, Or.inr ⟨e, [], [], p, d, k, rfl, ?_, Typed.done, hk⟩⟩
      simp [hev1]

theorem typed_genuine {runes : List Rune} {evs : List Event} (h : Typed runes evs) :
    genuinePayloads (actions evs) = runes.map encodeRune := by
  induction h with
  | done => rfl
  | plain c rest evs d _ ih => simp [actions, genuinePayloads, ih]
  | corrected c rest evs p d1 d2 _ ih => simp [actions, genuinePayloads, ih]

theorem typed_strip {runes : List Rune} {evs : List Event} (h : Typed runes evs) :
    stripCorrected (actions evs) = runes.map (fun c => Event.typeStr .genuine (encodeRune c)) := by
  induction h with
  | done => rfl
  | plain c rest evs d _ ih => simp [actions, stripCorrected, ih]
  | corrected c rest evs p d1 d2 _ ih => simp [actions, stripCorrected, ih]

theorem typed_length {runes : List Rune} {evs : List Event} (h : Typed runes evs) :
    runes.length ≤ (actions evs).length := by
  induction h with
  | done => simp
  | plain c rest evs d _ ih => simp [actions]; omega
  | corrected c rest evs p d1 d2 _ ih => simp [actions]; omega

theorem typed_no_failed_tap {runes : List Rune} {evs : List Event} (h : Typed runes evs)
    (k : GoString) (e : GoError) : Event.keyTap k (some e) ∉ evs := by
  induction h with
  | done => simp
  | plain c rest evs d _ ih => simp [ih]
  | corrected c rest evs p d1 d2 _ ih => simp [ih]

theorem last_of_split {α : Type} {B pre post : List α} {K X : α}
    (h : B ++ [K] = pre ++ X :: post) (hX : X ∉ B) : post = [] ∧ X = K := by
  rcases List.eq_nil_or_concat post with hp | ⟨post', z, hp⟩
  · subst hp
    have := List.append_inj' h rfl
    simp only [List.cons.injEq, and_true] at this
    exact ⟨rfl, this.2.symm⟩
  · subst hp
    have h' : B ++ [K] = (pre ++ X :: post') ++ [z] := by simp [h]
    have := (List.append_inj' h' rfl).1
    exact absurd (this ▸ (by simp : X ∈ pre ++ X :: post')) hX

/-- The run of `TypeStr`: it returns, with nil after typing every rune, or with the error
of a failed Backspace right after that key tap. -/
theorem TypeStr_run (str : GoString) (hlen : (str.length : Int) ≤ 9223372036854775807)
    (w : World) : ∃ r w' evs, TypeStr str w = .ok r w' ∧ w'.trace = w.trace ++ evs ∧
      ((r = none ∧ Typed (rangeRunes str) evs) ∨
        (∃ e pre typed p d k, r = some e ∧
          evs = pre ++ [.typeStr .typo p, .sleep d, .keyTap backspace (some e)] ∧
          Typed typed pre ∧ (w.keyTapResult k).map (GoError.mk .robotgo) = some e)) := by
  unfold TypeStr
  cases str with
  | nil => exact ⟨none, w, [], rfl, by simp, Or.inl ⟨rfl, Typed.done⟩⟩
  | cons b rest => exact typeLoop_run (b :: rest) (by simp) hlen _ w

theorem issued_ok {α : Type} {w w' : World} {a : α} {evs : List Event}
    (h : w'.trace = w.trace ++ evs) : issued w (Res.ok a w') = evs := by
  simp [issued, h]

/-- Claim C2: for every text and every outcome of the random draws, when no platform call
fails, `TypeStr` returns nil; the genuine emissions it performed are the characters of the
text, one emission per character and in order, so that concatenated they are the text;
apart from them the actions are typo emissions each immediately followed by a successful
Backspace; and there are at least as many actions as characters. -/
theorem TypeStr_emits_text (text : String) (w : World)
    (hlen : ((goStr text).length : Int) ≤ 9223372036854775807)
    (hplat : ∀ k, w.keyTapResult k = none) :
    ∃ w', TypeStr (goStr text) w = .ok none w' ∧
      genuinePayloads (typingActions (goStr text) w)
        = text.data.map (fun c => encodeRune c.toNat) ∧
      (genuinePayloads (typingActions (goStr text) w)).flatten = goStr text ∧
      stripCorrected (typingActions (goStr text) w)
        = text.data.map (fun c => Event.typeStr .genuine (encodeRune c.toNat)) ∧
      text.data.length ≤ (typingActions (goStr text) w).length := by
  obtain ⟨r, w', evs, hrun, htrace, hshape⟩ := TypeStr_run (goStr text) hlen w
  rcases hshape with ⟨hr, hty⟩ | ⟨e, pre, typed, p, d, k, hr, _, _, hk⟩
  · subst hr
    have hrunes : rangeRunes (goStr text) = text.data.map Char.toNat :=
      rangeRunes_encodeChars text.data
    rw [hrunes] at hty
    have hacts : typingActions (goStr text) w = actions evs := by
      unfold typingActions
      rw [hrun, issued_ok htrace]
    have hgen := typed_genuine hty
    rw [List.map_map] at hgen
    refine ⟨w', hrun, ?_, ?_, ?_, ?_⟩
    · rw [hacts, hgen]; rfl
    · rw [hacts, hgen]; rfl
    · rw [hacts, typed_strip hty, List.map_map]; rfl
    · rw [hacts]
      simpa using typed_length hty
  · rw [hplat k] at hk
    cases hk

/-- Claim C8: `TypeStr` returns a non-nil error exactly when its trace ends with a typo, the
pause, and a Backspace key tap that failed with that error; and a failed key tap anywhere in
its trace is a Backspace, is the last entry of the trace (nothing is performed after it), and
its error is the one returned. -/
theorem TypeStr_backspace_failure (str : GoString) (w : World)
    (hlen : (str.length : Int) ≤ 9223372036854775807) :
    ∃ r w', TypeStr str w = .ok r w' ∧
      (∀ e, r = some e ↔ ∃ pre p d, issued w (TypeStr str w) =
        pre ++ [.typeStr .typo p, .sleep d, .keyTap backspace (some e)]) ∧
      (∀ pre k e post, issued w (TypeStr str w) = pre ++ .keyTap k (some e) :: post →
        post = [] ∧ k = backspace ∧ r = some e) := by
  obtain ⟨r, w', evs, hrun, htrace, hshape⟩ := TypeStr_run str hlen w
  have hiss : issued w (TypeStr str w) = evs := by rw [hrun, issued_ok htrace]
  have hlast : ∀ pre k e post, evs = pre ++ .keyTap k (some e) :: post →
      post = [] ∧ k = backspace ∧ r = some e := by
    intro pre k e post hsplit
    rcases hshape with ⟨_, hty⟩ | ⟨e0, pre0, typed, p, d, _, hr, hevs, hty, _⟩
    · exact absurd (hsplit ▸ (by simp : Event.keyTap k (some e) ∈ pre ++ .keyTap k (some e) :: post))
        (typed_no_failed_tap hty k e)
    · have h1 : (pre0 ++ [.typeStr .typo p, .sleep d]) ++ [.keyTap backspace (some e0)]
          = pre ++ .keyTap k (some e) :: post := by
        rw [← hsplit, hevs]; simp
      have hnot : Event.keyTap k (some e) ∉ pre0 ++ [.typeStr .typo p, .sleep d] := by
        simp [typed_no_failed_tap hty k e]
      obtain ⟨hpost, hX⟩ := last_of_split h1 hnot
      simp only [Event.keyTap.injEq, Option.some.injEq] at hX
      exact ⟨hpost, hX.1, by rw [hr, hX.2]⟩
  refine ⟨r, w', hrun, ?_, ?_⟩
  · intro e
    rw [hiss]
    constructor
    · intro hr
      rcases hshape with ⟨hn, _⟩ | ⟨e0, pre0, typed, p, d, _, hr0, hevs, _, _⟩
      · rw [hn] at hr; cases hr
      · rw [hr0] at hr
        cases hr
        exact ⟨pre0, p, d, hevs⟩
    · rintro ⟨pre, p, d, hevs⟩
      have := hlast (pre ++ [.typeStr .typo p, .sleep d]) backspace e [] (by rw [hevs]; simp)
      exact this.2.2
  · rw [hiss]
    exact hlast


theorem MouseMove_result (x y : Int) (w : World) :
    (∃ w', MouseMove x y w = .ok none w') ∨ (∃ msg, MouseMove x y w = .panic msg) := by
  unfold MouseMove
  rw [bind_ok (rfl : Location w = .ok _ _)]
  simp only []
  cases h1 : getRandFloat 0.5 1.5 { w with looks := w.looks + 1 } with
  | panic msg => exact Or.inr ⟨msg, by rw [bind_panic h1]⟩
  | ok s w1 =>
    rw [bind_ok h1]
    cases h2 : getRandFloat 0.5 1.5 w1 with
    | panic msg => exact Or.inr ⟨msg, by rw [bind_panic h2]⟩
    | ok v w2 =>
      rw [bind_ok h2]
      obtain ⟨w3, _, hrun, _, _⟩ :=
        moveToWithJitter_run (w.cursor w.looks).1 (w.cursor w.looks).2 x y s v w2
      rw [bind_ok hrun]
      exact Or.inl ⟨w3, rfl⟩

theorem TypeStr_error_origin (str : GoString) (w w' : World) (e : GoError)
    (hlen : (str.length : Int) ≤ 9223372036854775807)
    (h : TypeStr str w = .ok (some e) w') : e.origin = .robotgo := by
  obtain ⟨r, w1, evs, hrun, _, hshape⟩ := TypeStr_run str hlen w
  rw [hrun] at h
  simp only [Res.ok.injEq] at h
  rcases hshape with ⟨hr, _⟩ | ⟨e0, _, _, _, _, k, hr, _, _, hk⟩
  · rw [hr] at h; cases h.1
  · rw [hr] at h
    cases h.1
    cases hkt : w.keyTapResult k with
    | none => rw [hkt] at hk; cases hk
    | some m => rw [hkt] at hk; cases hk; rfl

/-- Claim C3: when `cmd.Action` is none of the five known actions, `executeCommand` returns
the unknown-action error, whose message contains the action verbatim, in an unchanged world
(no platform call, no draw); when it is one of the five, `executeCommand` never returns an
unknown-action error. -/
theorem executeCommand_unknown_action (cmd : Command) (w : World)
    (hlen : (cmd.Value.length : Int) ≤ 9223372036854775807) :
    (cmd.Action ∉ knownActions →
      executeCommand cmd w = .ok (some (unknownAction cmd.Action)) w ∧
      cmd.Action <:+: (unknownAction cmd.Action).msg) ∧
    (cmd.Action ∈ knownActions →
      ∀ a w', executeCommand cmd w ≠ .ok (some (unknownAction a)) w') := by
  constructor
  · intro hnot
    simp only [knownActions, List.mem_cons, List.mem_singleton, not_or, List.not_mem_nil,
      or_false] at hnot
    obtain ⟨h1, h2, h3, h4, h5⟩ := hnot
    refine ⟨?_, ?_⟩
    · unfold executeCommand
      rw [if_neg h1, if_neg h2, if_neg h3, if_neg h4, if_neg h5]
      rfl
    · exact ⟨goStr "unknown action: ", [], by simp [unknownAction]⟩
  · intro hmem a w' heq
    unfold executeCommand at heq
    by_cases h1 : cmd.Action = goStr "moveMouse"
    · rw [if_pos h1] at heq
      rcases MouseMove_result cmd.X cmd.Y w with ⟨w1, h⟩ | ⟨msg, h⟩
      · rw [h] at heq; cases heq
      · rw [h] at heq; cases heq
    · rw [if_neg h1] at heq
      by_cases h2 : cmd.Action = goStr "click"
      · rw [if_pos h2] at heq
        cases heq
      · rw [if_neg h2] at heq
        by_cases h3 : cmd.Action = goStr "right_click"
        · rw [if_pos h3] at heq
          cases heq
        · rw [if_neg h3] at heq
          by_cases h4 : cmd.Action = goStr "type"
          · rw [if_pos h4] at heq
            have := TypeStr_error_origin cmd.Value w w' _ hlen heq
            cases this
          · rw [if_neg h4] at heq
            by_cases h5 : cmd.Action = goStr "keyTap"
            · rw [if_pos h5] at heq
              rw [bind_ok (rfl : KeyTap cmd.Value w = .ok _ _)] at heq
              simp only [pure_run, Res.ok.injEq] at heq
              cases hkt : w.keyTapResult w.taps with
              | none => rw [hkt] at heq; cases heq.1
              | some m => rw [hkt] at heq; cases heq.1
            · simp [knownActions, h1, h2, h3, h4, h5] at hmem

theorem httpError_status (msg : GoString) (code : Nat) :
    (httpError (withSecurityHeaders .fresh) msg code).status = some code ∧
      (httpError (withSecurityHeaders .fresh) msg code).body = msg ++ goStr "\n" := by
  simp [httpError, ResponseWriter.write, ResponseWriter.writeHeader, ResponseWriter.setHeader,
    withSecurityHeaders, ResponseWriter.fresh]

/-- Claim C4: the response of the command endpoint, in this order: 429 when the limiter
rejects; else 405 when the method is not POST; else 400 with the decode error text when the
body does not decode; else 500 with the dispatcher's error text when `executeCommand`
returns an error (so an unknown action gives a 500 whose body contains the action); else 200
with body `Command executed`.  In the first three cases the world is the one right after the
limiter was asked: the dispatcher did not run. -/
theorem commandHandler_order (decode : GoString → Except GoError Command) (r : Request)
    (w : World) :
    (w.allow w.asks = false →
      ∃ rw, cmdHandlerWithMiddlewares decode .fresh r w = .ok rw w.asked ∧
        rw.status = some 429 ∧ rw.body = goStr "Too Many Requests" ++ goStr "\n") ∧
    (w.allow w.asks = true → r.Method ≠ goStr "POST" →
      ∃ rw, cmdHandlerWithMiddlewares decode .fresh r w = .ok rw w.asked ∧
        rw.status = some 405 ∧ rw.body = goStr "Only POST method is accepted" ++ goStr "\n") ∧
    (w.allow w.asks = true → r.Method = goStr "POST" →
      ∀ err, decode r.Body = .error err →
      ∃ rw, cmdHandlerWithMiddlewares decode .fresh r w = .ok rw w.asked ∧
        rw.status = some 400 ∧ rw.body = err.msg ++ goStr "\n") ∧
    (w.allow w.asks = true → r.Method = goStr "POST" →
      ∀ cmd, decode r.Body = .ok cmd →
      ∀ err w', executeCommand cmd w.asked = .ok (some err) w' →
      ∃ rw, cmdHandlerWithMiddlewares decode .fresh r w = .ok rw w' ∧
        rw.status = some 500 ∧ rw.body = err.msg ++ goStr "\n") ∧
    (w.allow w.asks = true → r.Method = goStr "POST" →
      ∀ cmd, decode r.Body = .ok cmd →
      ∀ w', executeCommand cmd w.asked = .ok none w' →
      ∃ rw, cmdHandlerWithMiddlewares decode .fresh r w = .ok rw w' ∧
        rw.status = some 200 ∧ rw.body = goStr "Command executed") ∧
    (w.allow w.asks = true → r.Method = goStr "POST" →
      ∀ cmd, decode r.Body = .ok cmd → cmd.Action ∉ knownActions →
      ∃ rw, cmdHandlerWithMiddlewares decode .fresh r w = .ok rw w.asked ∧
        rw.status = some 500 ∧ cmd.Action <:+: rw.body) := by
  have hlim : limiterAllow w = .ok (w.allow w.asks) w.asked := rfl
  have h500 : w.allow w.asks = true → r.Method = goStr "POST" →
      ∀ cmd, decode r.Body = .ok cmd →
      ∀ err w', executeCommand cmd w.asked = .ok (some err) w' →
      ∃ rw, cmdHandlerWithMiddlewares decode .fresh r w = .ok rw w' ∧
        rw.status = some 500 ∧ rw.body = err.msg ++ goStr "\n" := by
    intro hal hm cmd hdec err w' hexec
    refine ⟨_, ?_, httpError_status err.msg 500⟩
    unfold cmdHandlerWithMiddlewares SecurityHeadersMiddleware RateLimitMiddleware
    rw [bind_ok hlim, hal]
    simp only [Bool.not_true, Bool.false_eq_true, if_false]
    unfold commandHandler
    simp only [hm, ne_eq, not_true_eq_false, if_false, hdec]
    rw [bind_ok hexec]
    rfl
  refine ⟨?_, ?_, ?_, h500, ?_, ?_⟩
  · intro hal
    refine ⟨_, ?_, httpError_status (goStr "Too Many Requests") 429⟩
    unfold cmdHandlerWithMiddlewares SecurityHeadersMiddleware RateLimitMiddleware
    rw [bind_ok hlim, hal]
    rfl
  · intro hal hm
    refine ⟨_, ?_, httpError_status (goStr "Only POST method is accepted") 405⟩
    unfold cmdHandlerWithMiddlewares SecurityHeadersMiddleware RateLimitMiddleware
    rw [bind_ok hlim, hal]
    simp only [Bool.not_true, Bool.false_eq_true, if_false]
    unfold commandHandler
    rw [if_pos hm]
    rfl
  · intro hal hm err hdec
    refine ⟨_, ?_, httpError_status err.msg 400⟩
    unfold cmdHandlerWithMiddlewares SecurityHeadersMiddleware RateLimitMiddleware
    rw [bind_ok hlim, hal]
    simp only [Bool.not_true, Bool.false_eq_true, if_false]
    unfold commandHandler
    simp only [hm, ne_eq, not_true_eq_false, if_false, hdec]
    rfl
  · intro hal hm cmd hdec w' hexec
    refine ⟨((withSecurityHeaders .fresh).writeHeader 200).write (goStr "Command executed"),
      ?_, ?_, ?_⟩
    · unfold cmdHandlerWithMiddlewares SecurityHeadersMiddleware RateLimitMiddleware
      rw [bind_ok hlim, hal]
      simp only [Bool.not_true, Bool.false_eq_true, if_false]
      unfold commandHandler
      simp only [hm, ne_eq, not_true_eq_false, if_false, hdec]
      rw [bind_ok hexec]
      rfl
    · simp [ResponseWriter.write, ResponseWriter.writeHeader, ResponseWriter.setHeader,
        ResponseWriter.fresh, withSecurityHeaders]
    · simp [ResponseWriter.write, ResponseWriter.writeHeader, ResponseWriter.setHeader,
        ResponseWriter.fresh, withSecurityHeaders]
  · intro hal hm cmd hdec hunk
    have hexec : executeCommand cmd w.asked = .ok (some (unknownAction cmd.Action)) w.asked := by
      simp only [knownActions, List.mem_cons, List.mem_singleton, not_or, List.not_mem_nil,
        or_false] at hunk
      obtain ⟨h1, h2, h3, h4, h5⟩ := hunk
      unfold executeCommand
      rw [if_neg h1, if_neg h2, if_neg h3, if_neg h4, if_neg h5]
      rfl
    obtain ⟨rw, hrun, hst, hbody⟩ := h500 hal hm cmd hdec _ _ hexec
    refine ⟨rw, hrun, hst, ?_⟩
    rw [hbody]
    exact ⟨goStr "unknown action: ", goStr "\n", by simp [unknownAction]⟩

/-- Claim C6 fails as stated: with an entropy source that fails, `getRandInt(16, 50)` does
not return `min = 16`. -/
theorem getRandInt_error_is_not_min :
    (∃ e, worldNoEntropy.entropy worldNoEntropy.reads = .error e) ∧
      ¬ ∃ w', getRandInt 16 50 worldNoEntropy = .ok 16 w' := by
  refine ⟨⟨_, rfl⟩, ?_⟩
  rintro ⟨w', h⟩
  rw [getRandInt_ok 16 50 worldNoEntropy (by decide)] at h
  simp only [Res.ok.injEq] at h
  exact absurd h.1 (by decide)

/-- Claim C6, amended: when the read of the entropy source returns an error, `getRandInt`
and `getRandFloat` return 0, not `min`, and no error is propagated.  The read takes place
for every `min`, `max` whose range size, as the function computes it, is 2 or more; for the
range size 1 `rand.Int` answers 0 without reading, and for a smaller one it panics. -/
theorem getRand_error_returns_zero (w : World) (e : GoError) (min max : Int)
    (fmin fmax : Float) (h : w.entropy w.reads = .error e) :
    getRandInt min max w =
      (if wrapInt (wrapInt (max - min) + 1) ≤ 0
        then .panic "crypto/rand: argument to Int is <= 0"
        else if wrapInt (wrapInt (max - min) + 1) = 1 then .ok (wrapInt (min + 0)) w
        else .ok 0 w.tick) ∧
    getRandFloat fmin fmax w =
      (if floatRange fmin fmax ≤ 0
        then .panic "crypto/rand: argument to Int is <= 0"
        else if floatRange fmin fmax = 1 then .ok (fmin + Float.ofInt 0 / 100) w
        else .ok 0 w.tick) := by
  constructor
  · by_cases hr : wrapInt (wrapInt (max - min) + 1) ≤ 0
    · rw [if_pos hr, getRandInt_panic min max w hr]
    · rw [if_neg hr]
      by_cases hone : wrapInt (wrapInt (max - min) + 1) = 1
      · rw [if_pos hone, getRandInt_one min max w hone]
      · rw [if_neg hone, getRandInt_ok min max w (by omega)]
        unfold drawn
        rw [h]
  · unfold getRandFloat
    by_cases hr : floatRange fmin fmax ≤ 0
    · rw [if_pos hr]
      have hp : randInt (floatRange fmin fmax) w =
          .panic "crypto/rand: argument to Int is <= 0" := by
        unfold randInt
        rw [if_pos hr]
      rw [bind_panic hp]
    · rw [if_neg hr]
      by_cases hone : floatRange fmin fmax = 1
      · rw [if_pos hone, hone, bind_ok (randInt_one w)]
        rfl
      · rw [if_neg hone, bind_ok (randInt_run _ w (by omega)), h]
        rfl

/-- The amended claim C6 at `getRandInt(16, 50)` and `getRandFloat(0.5, 1.5)` with a failing
entropy source. -/
theorem getRand_error_returns_zero_witness :
    (worldNoEntropy.entropy worldNoEntropy.reads
      = .error ⟨.cryptoRand, goStr "read failed"⟩) ∧
    getRandInt 16 50 worldNoEntropy = .ok 0 worldNoEntropy.tick ∧
    getRandFloat 0.5 1.5 worldNoEntropy =
      (if floatRange 0.5 1.5 ≤ 0
        then .panic "crypto/rand: argument to Int is <= 0"
        else if floatRange 0.5 1.5 = 1 then .ok (0.5 + Float.ofInt 0 / 100) worldNoEntropy
        else .ok 0 worldNoEntropy.tick) :=
  ⟨rfl, (getRand_error_returns_zero worldNoEntropy _ 16 50 0.5 1.5 rfl).1,
    (getRand_error_returns_zero worldNoEntropy _ 16 50 0.5 1.5 rfl).2⟩

/-- Claim C9 at its own examples: `"abc,5"` gives `(10, 5)` and `"7,xyz"` gives `(7, 10)`,
but for the flag values `"5"` and `""` the index expression `[1]` panics, and startup
computes no pair. -/
theorem parseRateLimit_missing_field :
    parseRateLimit (goStr "abc,5") = .ok (10, 5) ∧
    parseRateLimit (goStr "7,xyz") = .ok (7, 10) ∧
    parseRateLimit (goStr "5") = .error "index out of range" ∧
    parseRateLimit (goStr "") = .error "index out of range" :=
  ⟨rfl, rfl, rfl, rfl⟩

/-- Claim C10 at the text made of the one character U+00E9 (bytes `C3 A9`): the typo
emitted is `string(str[0])`, the encoding `C3 83` of U+00C3, which is not a character of the
text. -/
theorem TypeStr_typo_is_not_a_character :
    goStr textEAcute = [byteOf 0xC3, byteOf 0xA9] ∧
    typoPayloads (issued (worldConst 0) (TypeStr (goStr textEAcute) (worldConst 0)))
      = [[byteOf 0xC3, byteOf 0x83]] ∧
    [byteOf 0xC3, byteOf 0x83] ∉ textEAcute.data.map (fun c => encodeRune c.toNat) := by
  decide

/-! ## The theorems with hypotheses at concrete inputs -/

/-- Claim C2 at the text `"hi"`, with draws that make a typo before every character. -/
theorem TypeStr_emits_text_witness :
    ((((goStr "hi").length : Int) ≤ 9223372036854775807) ∧
      (∀ k, (worldConst 0).keyTapResult k = none)) ∧
    ∃ w', TypeStr (goStr "hi") (worldConst 0) = .ok none w' ∧
      genuinePayloads (typingActions (goStr "hi") (worldConst 0))
        = "hi".data.map (fun c => encodeRune c.toNat) ∧
      (genuinePayloads (typingActions (goStr "hi") (worldConst 0))).flatten = goStr "hi" ∧
      stripCorrected (typingActions (goStr "hi") (worldConst 0))
        = "hi".data.map (fun c => Event.typeStr .genuine (encodeRune c.toNat)) ∧
      "hi".data.length ≤ (typingActions (goStr "hi") (worldConst 0)).length :=
  ⟨⟨by decide, fun _ => rfl⟩,
    TypeStr_emits_text "hi" (worldConst 0) (by decide) (fun _ => rfl)⟩

/-- Claim C8 at the text `"ab"`, with a platform that fails every key tap. -/
theorem TypeStr_backspace_failure_witness :
    (((goStr "ab").length : Int) ≤ 9223372036854775807) ∧
    ∃ r w', TypeStr (goStr "ab") worldTapFails = .ok r w' ∧
      (∀ e, r = some e ↔ ∃ pre p d, issued worldTapFails (TypeStr (goStr "ab") worldTapFails) =
        pre ++ [.typeStr .typo p, .sleep d, .keyTap backspace (some e)]) ∧
      (∀ pre k e post, issued worldTapFails (TypeStr (goStr "ab") worldTapFails) =
        pre ++ .keyTap k (some e) :: post → post = [] ∧ k = backspace ∧ r = some e) :=
  ⟨by decide, TypeStr_backspace_failure (goStr "ab") worldTapFails (by decide)⟩

/-- Claim C3 at the command of action `"foo"`. -/
theorem executeCommand_unknown_action_witness :
    (((([] : GoString).length : Int) ≤ 9223372036854775807) ∧ goStr "foo" ∉ knownActions) ∧
    executeCommand ⟨goStr "foo", 0, 0, []⟩ (worldConst 0)
      = .ok (some (unknownAction (goStr "foo"))) (worldConst 0) ∧
    goStr "foo" <:+: (unknownAction (goStr "foo")).msg :=
  ⟨⟨by decide, by decide⟩,
    (executeCommand_unknown_action ⟨goStr "foo", 0, 0, []⟩ (worldConst 0) (by decide)).1
      (by decide)⟩

/-- Claim C4 at a POST request whose body decodes to the command of action `"foo"`, with a
limiter that allows it: status 500, and the body contains `foo`. -/
theorem commandHandler_order_witness :
    ((worldConst 0).allow (worldConst 0).asks = true ∧ goStr "foo" ∉ knownActions) ∧
    ∃ rw, cmdHandlerWithMiddlewares decodeFoo .fresh ⟨goStr "POST", []⟩ (worldConst 0)
        = .ok rw (worldConst 0).asked ∧
      rw.status = some 500 ∧ goStr "foo" <:+: rw.body :=
  ⟨⟨rfl, by decide⟩,
    (commandHandler_order decodeFoo ⟨goStr "POST", []⟩ (worldConst 0)).2.2.2.2.2 rfl rfl
      ⟨goStr "foo", 0, 0, []⟩ rfl (by decide)⟩

end RBee
